import Mathlib

/-!
# bolt-ircbot: the issue-reference pipeline of `boltircbot.go`

A shallow embedding of the `PRIVMSG` callback that resolves `#<number>` mentions
(`main`, lines 138-206) and of `swedishEncode` (lines 279-294), with the properties
of the specification stated over it.
-/

namespace BoltIrcBot

/-! ## Text Transform Utility (`swedishEncode`) -/

/-- The constant `Consonants` of the source (line 279). -/
def Consonants : String := "BCDGFHJKLMNPQRSTVWXZbcdfghjklmnpqrstvwxz"

/-- The call `strings.ContainsRune(s, r)`: whether the rune occurs in the string. -/
def containsRune (s : String) (r : Char) : Bool := s.data.contains r

/-- The call `unicode.ToLower(r)` on the ASCII range, where Go maps `A`..`Z` to `a`..`z`
and leaves every other ASCII rune alone. The encoder only calls it on runes of `Consonants`,
all of them ASCII letters. -/
def toLower (r : Char) : Char := r.toLower

/-- One iteration of the loop of `swedishEncode`: append the letter, and for a consonant
append `o` and the lower-cased letter. -/
def encodeStep (encodedString : List Char) (letter : Char) : List Char :=
  let encodedString := encodedString ++ [letter]
  if containsRune Consonants letter then
    (encodedString ++ ['o']) ++ [toLower letter]
  else
    encodedString

/-- The function `swedishEncode` of the source: a loop over the runes of the input that
grows a rune slice, converted to a string at the end. -/
def swedishEncode (inputString : String) : String :=
  String.mk (inputString.data.foldl encodeStep [])

/-- The encoder as the specification words it: what one character contributes. -/
def encodeCharSpec (c : Char) : List Char :=
  if c ∈ Consonants.data then [c, 'o', c.toLower] else [c]

/-- The encoder as the specification words it: the in-order concatenation of the
contributions of the characters. -/
def swedishEncodeSpec (s : String) : String :=
  String.mk ((s.data.map encodeCharSpec).flatten)

/-- The number of characters of a string that are in `Consonants`. -/
def consonantCount (s : String) : Nat := s.data.countP (fun c => containsRune Consonants c)

/-! ## float64 values -/

/-- The magnitude of a float64 value: finite, `man * 2 ^ exp`, or infinite. The values of
this program come from `strconv.ParseFloat` on decimal digits and from JSON numbers, so
no NaN occurs. -/
inductive Mag where
  | fin (man : Nat) (exp : Int)
  | inf
  deriving DecidableEq, Repr

/-- A float64 value: the sign bit and the magnitude. Negative zero is `⟨true, .fin 0 0⟩`. -/
structure F64 where
  neg : Bool
  mag : Mag
  deriving DecidableEq, Repr

/-- The natural number a magnitude denotes, when it is finite and integral. -/
def Mag.toNat? : Mag → Option Nat
  | .fin man exp =>
    if 0 ≤ exp then some (man * 2 ^ exp.toNat)
    else if man % 2 ^ (-exp).toNat = 0 then some (man / 2 ^ (-exp).toNat)
    else none
  | .inf => none

/-- The integer a float64 value denotes, when it is finite and integral (both zeros
denote 0). -/
def F64.toInt? (x : F64) : Option Int :=
  match x.mag.toNat? with
  | some k => some (if x.neg then -(k : Int) else (k : Int))
  | none => none

/-- The float64 holding an integer of magnitude below `2 ^ 53`, such as the constants
`1`, `1555` and `-1` of the source. -/
def F64.ofInt (z : Int) : F64 := ⟨decide (z < 0), .fin z.natAbs 0⟩

/-- Go's `x == c` between a float64 and an integer constant: equality of values. -/
def F64.eqInt (x : F64) (c : Int) : Bool := x.toInt? == some c

/-- Go's `math.Mod(x, c) == 0` for a non-zero integer constant `c`: `math.Mod` is the exact
remainder, so it is zero when `x` is an integral multiple of `c`; for an infinite `x` the
remainder is NaN, which equals nothing. -/
def F64.modIsZero (x : F64) (c : Int) : Bool :=
  match x.toInt? with
  | some k => k % c == 0
  | none => false

/-- The call `math.Signbit(x)`. -/
def Signbit (x : F64) : Bool := x.neg

/-- The call `math.Abs(x)`: the sign bit cleared. -/
def Abs (x : F64) : F64 := { x with neg := false }

/-! ### `strconv.ParseFloat` on the captured text -/

/-- The errors of `strconv.ParseFloat`: `ErrSyntax` and `ErrRange`. -/
inductive NumError where
  | malformed
  | outOfRange
  deriving DecidableEq, Repr

/-- The value of a rune as a decimal digit. -/
def digitVal (c : Char) : Nat := c.toNat - 48

/-- The number a sequence of decimal digits denotes, most significant digit first. -/
def digitsVal (ds : List Char) : Nat := ds.foldl (fun acc c => 10 * acc + digitVal c) 0

/-- The sign and the number of a text of the form `-?\d+`; `none` for every other text. -/
def parseDecimal (s : List Char) : Option (Bool × Nat) :=
  match s with
  | '-' :: ds => if ds ≠ [] ∧ ds.all Char.isDigit then some (true, digitsVal ds) else none
  | ds => if ds ≠ [] ∧ ds.all Char.isDigit then some (false, digitsVal ds) else none

/-- The least `s` (searched upwards, at most `fuel` steps) with `n / 2 ^ s < 2 ^ 53`. -/
def shiftFor (n : Nat) : Nat → Nat → Nat
  | 0, s => s
  | fuel + 1, s => if n / 2 ^ s < 2 ^ 53 then s else shiftFor n fuel (s + 1)

/-- The first number that no longer rounds to a finite float64: halfway between the
largest float64, `2 ^ 1024 - 2 ^ 971`, and `2 ^ 1024`, that is `(2 ^ 54 - 1) * 2 ^ 970`
(with `2 ^ 970` written `(2 ^ 97) ^ 10`). -/
def overflowBound : Nat := (2 ^ 54 - 1) * (2 ^ 97) ^ 10

/-- The float64 magnitude nearest to a natural number, ties to the even significand (IEEE 754
round-to-nearest-even, which `strconv.ParseFloat` implements); numbers from `overflowBound`
on round to infinity. -/
def roundNat (n : Nat) : Mag :=
  if n < 2 ^ 53 then .fin n 0
  else if overflowBound ≤ n then .inf
  else
    let s := shiftFor n 1024 0
    let q := n / 2 ^ s
    let r := n % 2 ^ s
    let half := 2 ^ (s - 1)
    let q := if half < r ∨ (r = half ∧ q % 2 = 1) then q + 1 else q
    .fin q s

/-- The call `strconv.ParseFloat(s, 64)` on the texts the pattern `-?\d+` captures: the
nearest float64 with the sign of the text and no error, or the infinity of that sign with
a range error. A text the pattern cannot capture is reported as a syntax error with value 0,
which is what Go does for a text that is no number. -/
def ParseFloat (s : String) : F64 × Option NumError :=
  match parseDecimal s.data with
  | some (neg, n) =>
    match roundNat n with
    | .inf => (⟨neg, .inf⟩, some .outOfRange)
    | m => (⟨neg, m⟩, none)
  | none => (⟨false, .fin 0 0⟩, some .malformed)

/-! ### Formatting floats -/

/-- The exponent part of Go's `%e` layout: sign and at least two digits. -/
def expPart (e : Nat) : List Char :=
  ['e', '+'] ++ (if e < 10 then '0' :: Nat.toDigits 10 e else Nat.toDigits 10 e)

/-- The layout `strconv.FormatFloat(x, 'g', -1, 64)` gives a non-negative integer below
`2 ^ 53`, whose shortest identifying digits are its decimal digits without the trailing
zeros: plain digits when the decimal exponent is below 6, else `d.ddde+XX`. -/
def formatNatG (k : Nat) : String :=
  let ds := Nat.toDigits 10 k
  if ds.length ≤ 6 then String.mk ds
  else
    let sig := (ds.reverse.dropWhile (fun c => c == '0')).reverse
    String.mk (sig.take 1 ++ (if sig.length ≤ 1 then [] else '.' :: sig.drop 1)
      ++ expPart (ds.length - 1))

/-! ## JSON values and the tracker -/

/-- What `encoding/json` decodes into an `interface{}`: `nil`, `bool`, `float64`, `string`,
`[]interface{}` or `map[string]interface{}`. -/
inductive JVal where
  | null
  | bool (b : Bool)
  | num (x : F64)
  | str (s : String)
  | arr (items : List JVal)
  | obj (fields : List (String × JVal))

/-- A decoded `map[string]interface{}`. -/
abbrev JMap := List (String × JVal)

/-- The map index `m[key]`: the value stored under the key, `nil` when there is none. -/
def JMap.index (m : JMap) (key : String) : JVal :=
  match m.lookup key with
  | some v => v
  | none => .null

/-- The outcome of `http.Get` followed, for a response, by the decode of its body into the
field map: `body` is `none` when `Decode` returns an error. -/
inductive HttpResult where
  | transportError
  | response (statusCode : Int) (body : Option JMap)

/-- The Go runtime and the network this program runs against, as far as the handler
observes them. -/
structure Runtime where
  /-- The result of `strconv.FormatFloat(x, fmt, -1, 64)` for the finite values that are
  not an integer below `2 ^ 53` (their shortest digits are not modelled). -/
  formatOther : Char → F64 → String
  /-- Whether `url.Parse` accepts the text. -/
  urlParse : String → Bool
  /-- The outcome of `http.Get` on the parsed URL (first argument, as text) with the
  `access_token` query (second argument) added. -/
  httpGet : String → String → HttpResult

/-- The call `strconv.FormatFloat(x, fmt, -1, 64)` for `fmt` one of `'f'` and `'g'`. -/
def FormatFloat (rt : Runtime) (x : F64) (fmt : Char) : String :=
  match x.mag with
  | .inf => if x.neg then "-Inf" else "+Inf"
  | .fin _ _ =>
    match x.mag.toNat? with
    | some k =>
      if k < 2 ^ 53 then
        (if x.neg then "-" else "")
          ++ (if fmt = 'f' then String.mk (Nat.toDigits 10 k) else formatNatG k)
      else rt.formatOther fmt x
    | none => rt.formatOther fmt x

/-- The verb `%v` of `fmt` on a float64: `%g` with the shortest precision. -/
def fmtV (rt : Runtime) (x : F64) : String := FormatFloat rt x 'g'

/-! ## The Reference Extractor: the pattern `#(-?\d+)` -/

/-- The state of the scan for the pattern `#(-?\d+)`: outside a candidate, after `#`,
after `#-`, or inside the digits of a match (with the sign seen and the digits so far). -/
inductive Scan where
  | idle
  | hash
  | hashMinus
  | digits (neg : Bool) (ds : List Char)

/-- The state after a rune that extends no candidate: a `#` starts a new one. -/
def Scan.restart (c : Char) : Scan := if c = '#' then .hash else .idle

/-- The submatch slice of one match: the whole match and the captured group. -/
def submatchOf (neg : Bool) (ds : List Char) : List String :=
  let group := (if neg then ['-'] else []) ++ ds
  [String.mk ('#' :: group), String.mk group]

/-- The leftmost, non-overlapping matches of `#(-?\d+)` in the runes, each digit run taken
as long as possible, which is what `FindAllStringSubmatch(text, -1)` returns for this
pattern. -/
def scanMatches : Scan → List Char → List (List String)
  | .digits neg ds, [] => [submatchOf neg ds]
  | _, [] => []
  | .digits neg ds, c :: cs =>
    if c.isDigit then scanMatches (.digits neg (ds ++ [c])) cs
    else submatchOf neg ds :: scanMatches (Scan.restart c) cs
  | .hash, c :: cs =>
    if c.isDigit then scanMatches (.digits false [c]) cs
    else if c = '-' then scanMatches .hashMinus cs
    else scanMatches (Scan.restart c) cs
  | .hashMinus, c :: cs =>
    if c.isDigit then scanMatches (.digits true [c]) cs
    else scanMatches (Scan.restart c) cs
  | .idle, c :: cs => scanMatches (Scan.restart c) cs

/-- The call `r.FindAllStringSubmatch(text, -1)` for `r` the pattern `#(-?\d+)` (line 138). -/
def FindAllStringSubmatch (text : String) : List (List String) :=
  scanMatches .idle text.data

/-! ## The handler and its effects -/

/-- What the handler does to the outside world, in the order it does it. -/
inductive Effect where
  /-- A line written with `log.Println`. -/
  | log
  /-- The request `http.Get` sends: the URL text and the access token. -/
  | httpGet (url token : String)
  /-- The call `ircproj.Notice(target, message)`. -/
  | notice (target message : String)
  /-- The call `ircproj.Action(target, message)`. -/
  | action (target message : String)
  /-- The call `time.Sleep` of that many seconds. -/
  | sleep (seconds : Nat)
  deriving DecidableEq, Repr

/-- A run of handler code: the effects performed, and the value it ends with, `none` when
it panicked (a failed type assertion), which ends the goroutine and the process. -/
structure Run (α : Type) where
  trace : List Effect
  value : Option α

/-- A run that performs nothing and ends with the value. -/
def Run.ret {α : Type} (a : α) : Run α := ⟨[], some a⟩

/-- Sequencing: the second run happens after the first unless the first panicked. -/
def Run.andThen {α β : Type} (x : Run α) (f : α → Run β) : Run β :=
  match x.value with
  | some a => ⟨x.trace ++ (f a).trace, (f a).value⟩
  | none => ⟨x.trace, none⟩

instance : Monad Run where
  pure := Run.ret
  bind := Run.andThen

/-- Perform one effect. -/
def perform (e : Effect) : Run Unit := ⟨[e], some ()⟩

/-- A run-time panic. -/
def goPanic {α : Type} : Run α := ⟨[], none⟩

/-- The type assertion `v.(float64)`, which panics on every other dynamic type and on `nil`. -/
def assertFloat64 : JVal → Run F64
  | .num x => pure x
  | _ => goPanic

/-- The type assertion `v.(string)`. -/
def assertString : JVal → Run String
  | .str s => pure s
  | _ => goPanic

/-- The type assertion `v.(map[string]interface{})`. -/
def assertMap : JVal → Run JMap
  | .obj fields => pure fields
  | _ => goPanic

/-- The comparison `v != nil` of an interface value. -/
def JVal.notNil : JVal → Bool
  | .null => false
  | _ => true

/-- The fields of the configuration the handler reads: `c.Github.Owner`, `c.Github.Repos`,
`c.Github.Token` and `c.Irc.Nickname`. -/
structure Config where
  Owner : String
  Repos : String
  Token : String
  Nickname : String

/-- An inbound `PRIVMSG` event: `event.Nick`, `event.Arguments[0]` and `event.Message()`. -/
structure Event where
  Nick : String
  target : String
  message : String

/-- The Response Selector: lines 175-204 of the callback. Every `m["number"].(float64)` of
the source is an assertion of its own here, in the order Go evaluates them. -/
def respond (rt : Runtime) (c : Config) (event : Event) (matchNormalized : F64)
    (matchNegative : Bool) (m : JMap) : Run Unit :=
  if matchNegative then
    if matchNormalized.eqInt (-1) then do
      let number ← assertFloat64 (m.index "number")
      perform (.notice event.target ("#" ++ fmtV rt number
        ++ " Add locale ´Rövarspråket´ as default, since it is the new Lingua Franca of the internet. https://github.com/bolt/bolt/issues/1"))
    else if matchNormalized.eqInt (-1555) then
      perform (.notice event.target ("Do not tempt the gods, " ++ event.Nick ++ "."))
    else do
      let number ← assertFloat64 (m.index "number")
      if number.modIsZero 1555 then do
        let number1 ← assertFloat64 (m.index "number")
        let number2 ← assertFloat64 (m.index "number")
        perform (.notice event.target ("#" ++ fmtV rt number1
          ++ " They don't think it be like it is but it do. https://github.com/bolt/bolt/issues/"
          ++ fmtV rt number2))
      else do
        let number ← assertFloat64 (m.index "number")
        let title ← assertString (m.index "title")
        let htmlUrl ← assertString (m.index "html_url")
        perform (.notice event.target ("#" ++ fmtV rt number ++ " " ++ swedishEncode title
          ++ " " ++ htmlUrl))
  else do
    let number ← assertFloat64 (m.index "number")
    if number.eqInt 1 then do
      perform (.notice event.target ("#1 Port Bolt to Go to keep " ++ c.Nickname
        ++ " happy https://github.com/bolt/bolt/issues/1"))
      perform (.sleep 5)
      perform (.action event.target "is written in Go, and therefore isn't allowed to like PHP")
    else do
      let number ← assertFloat64 (m.index "number")
      if number.eqInt 1555 then
        perform (.action event.target ("warns " ++ event.Nick
          ++ " that #1555 nearly caused the end of the known universe and should never be mentioned again"))
      else do
        let assignee ←
          if (m.index "assignee").notNil then do
            let fields ← assertMap (m.index "assignee")
            let login ← assertString (JMap.index fields "login")
            pure (" — assigned to " ++ login)
          else pure ""
        let number ← assertFloat64 (m.index "number")
        let state ← assertString (m.index "state")
        let title ← assertString (m.index "title")
        let htmlUrl ← assertString (m.index "html_url")
        perform (.notice event.target ("#" ++ fmtV rt number ++ " [" ++ state ++ "] " ++ title
          ++ " " ++ htmlUrl ++ " " ++ assignee))
        let number ← assertFloat64 (m.index "number")
        if number.modIsZero 1555 then do
          perform (.sleep 2)
          perform (.action event.target "looks at that number suspiciously…")
        else pure ()

/-- The text `fmt.Sprintf` builds for the request (line 152). -/
def issueUrl (c : Config) (gitMatch : String) : String :=
  "https://api.github.com/repos/" ++ c.Owner ++ "/" ++ c.Repos ++ "/issues/" ++ gitMatch

/-- The body of the loop over the matches (lines 142-204); a `continue` ends the run of
the body. The error of `ParseFloat` is assigned to `err` and overwritten by the error of
`url.Parse` before anything reads it. The deferred `resp.Body.Close()` touches neither the
chat nor the tracker and is left out. -/
def handleMatch (rt : Runtime) (c : Config) (event : Event) (submatch : List String) :
    Run Unit :=
  if event.Nick = "[BoltGitHubBot]" then pure ()
  else if submatch.length < 2 then pure ()
  else
    let parsed := ParseFloat (submatch.getD 1 "")
    let matchNormalized := parsed.1
    let matchNegative := Signbit matchNormalized
    let gitMatch := FormatFloat rt (Abs matchNormalized) 'f'
    let u := issueUrl c gitMatch
    if rt.urlParse u = false then perform .log
    else do
      perform (.httpGet u c.Token)
      match rt.httpGet u c.Token with
      | .transportError => perform .log
      | .response statusCode body =>
        if ¬ (200 ≤ statusCode ∧ statusCode ≤ 299) then perform .log
        else
          match body with
          | none => perform .log
          | some m => respond rt c event matchNormalized matchNegative m

/-- The loop `for _, match := range matches`: the bodies in order, cut short by a panic. -/
def forEach (body : List String → Run Unit) : List (List String) → Run Unit
  | [] => pure ()
  | submatch :: rest => do
    body submatch
    forEach body rest

/-- The issue-reference `PRIVMSG` callback (lines 139-206). -/
def handler (rt : Runtime) (c : Config) (event : Event) : Run Unit :=
  forEach (handleMatch rt c event) (FindAllStringSubmatch event.message)

/-- The notices and actions of a trace, in order: the outbound chat messages. -/
def outbound (trace : List Effect) : List Effect :=
  trace.filter (fun e => match e with
    | .notice _ _ => true
    | .action _ _ => true
    | _ => false)

/-- The requests of a trace, in order. -/
def fetches (trace : List Effect) : List Effect :=
  trace.filter (fun e => match e with
    | .httpGet _ _ => true
    | _ => false)

/-! ## Vocabulary of the specification -/

/-- The decoded map is an issue record of the data model: `number` is the float `number`,
`title`, `state` and `html_url` are strings, and `assignee` is absent or null (`none`) or
an object whose `login` is a string (`some login`). -/
structure IsIssueRecord (m : JMap) (number : F64) (title state htmlUrl : String)
    (assignee : Option String) : Prop where
  number_eq : m.index "number" = .num number
  title_eq : m.index "title" = .str title
  state_eq : m.index "state" = .str state
  url_eq : m.index "html_url" = .str htmlUrl
  assignee_eq : match assignee with
    | none => m.index "assignee" = .null
    | some login => ∃ fields, m.index "assignee" = .obj fields
        ∧ JMap.index fields "login" = .str login

/-- The Easter-egg notice of branch 1, with the rendered number in its slot. -/
def easterEggText (number : String) : String :=
  "#" ++ number ++ " Add locale ´Rövarspråket´ as default, since it is the new Lingua Franca of the internet. https://github.com/bolt/bolt/issues/1"

/-- The warning notice of branch 2. -/
def warningText (nick : String) : String := "Do not tempt the gods, " ++ nick ++ "."

/-- The themed notice of branch 3, with the rendered number in both slots. -/
def themedText (number : String) : String :=
  "#" ++ number ++ " They don't think it be like it is but it do. https://github.com/bolt/bolt/issues/" ++ number

/-- The alternate notice of branch 4. -/
def alternateText (number title htmlUrl : String) : String :=
  "#" ++ number ++ " " ++ swedishEncode title ++ " " ++ htmlUrl

/-- The in-joke notice of branch 5. -/
def inJokeText (nickname : String) : String :=
  "#1 Port Bolt to Go to keep " ++ nickname ++ " happy https://github.com/bolt/bolt/issues/1"

/-- The follow-up action of branch 5. -/
def inJokeAction : String := "is written in Go, and therefore isn't allowed to like PHP"

/-- The themed action of branch 6. -/
def themedAction (nick : String) : String :=
  "warns " ++ nick ++ " that #1555 nearly caused the end of the known universe and should never be mentioned again"

/-- The suffix of the standard notice for the assignee. -/
def assigneeSuffix : Option String → String
  | none => ""
  | some login => " — assigned to " ++ login

/-- The standard notice of branch 7: the template `#%v [%s] %s %s %s`. -/
def standardText (number state title htmlUrl : String) (assignee : Option String) : String :=
  "#" ++ number ++ " [" ++ state ++ "] " ++ title ++ " " ++ htmlUrl ++ " "
    ++ assigneeSuffix assignee

/-- The follow-up action of branch 7. -/
def suspiciousAction : String := "looks at that number suspiciously…"

/-- Whether a trace holds a delayed follow-up: a sleep directly followed by an action. -/
def hasDelayedAction : List Effect → Bool
  | .sleep _ :: .action _ _ :: _ => true
  | _ :: rest => hasDelayedAction rest
  | [] => false

/-- Whether the outcome of a fetch is a failure: a transport error, a status outside
[200,299], or a body that does not decode. -/
def HttpResult.failed : HttpResult → Bool
  | .transportError => true
  | .response statusCode body => !(decide (200 ≤ statusCode ∧ statusCode ≤ 299)) || body.isNone

/-- The outcome of the fetch the handler issues for a match, as lines 149-160 build it. -/
def fetchOutcome (rt : Runtime) (c : Config) (submatch : List String) : HttpResult :=
  let matchNormalized := (ParseFloat (submatch.getD 1 "")).1
  rt.httpGet (issueUrl c (FormatFloat rt (Abs matchNormalized) 'f')) c.Token

/-- The text without its leading zeros, `0` when nothing else is left. -/
def stripLeadingZeros (ds : List Char) : List Char :=
  match ds.dropWhile (fun c => c == '0') with
  | [] => ['0']
  | rest => rest

/-- The decision table of the Response Selector as the specification lists it, first
matching branch first: the effects of one successful match, from the sign flag, the parsed
value `v` (when it is an integer), the fetched number (`number`, denoting the integer `n`)
and the other fields of the record. -/
def decisionTable (rt : Runtime) (c : Config) (event : Event) (isAlternate : Bool)
    (v : Option Int) (number : F64) (n : Int) (title state htmlUrl : String)
    (assignee : Option String) : List Effect :=
  if isAlternate ∧ v = some (-1) then
    [.notice event.target (easterEggText (fmtV rt number))]
  else if isAlternate ∧ v = some (-1555) then
    [.notice event.target (warningText event.Nick)]
  else if isAlternate ∧ n % 1555 = 0 then
    [.notice event.target (themedText (fmtV rt number))]
  else if isAlternate then
    [.notice event.target (alternateText (fmtV rt number) title htmlUrl)]
  else if n = 1 then
    [.notice event.target (inJokeText c.Nickname), .sleep 5, .action event.target inJokeAction]
  else if n = 1555 then
    [.action event.target (themedAction event.Nick)]
  else
    .notice event.target (standardText (fmtV rt number) state title htmlUrl assignee)
      :: (if n % 1555 = 0 then [.sleep 2, .action event.target suspiciousAction] else [])

/-! ## Sample inputs -/

/-- A sample configuration. -/
def sampleConfig : Config :=
  { Owner := "bolt", Repos := "bolt", Token := "t0k3n", Nickname := "issuebot" }

/-- A sample issue record: number 3110, open, assigned. -/
def sampleRecord : JMap :=
  [("number", .num (F64.ofInt 3110)), ("state", .str "open"), ("title", .str "Go"),
   ("html_url", .str "https://github.com/bolt/bolt/issues/3110"),
   ("assignee", .obj [("login", .str "bopp")])]

/-- A sample tracker: issue 3110 is `sampleRecord`, issue 6 answers 200 with the empty
object, issue 8 answers 200 with a body that does not decode, issue 9 does not answer, and
every other path answers 404. -/
def sampleTracker (url _token : String) : HttpResult :=
  if url = "https://api.github.com/repos/bolt/bolt/issues/3110" then
    .response 200 (some sampleRecord)
  else if url = "https://api.github.com/repos/bolt/bolt/issues/6" then .response 200 (some [])
  else if url = "https://api.github.com/repos/bolt/bolt/issues/8" then .response 200 none
  else if url = "https://api.github.com/repos/bolt/bolt/issues/9" then .transportError
  else .response 404 none

/-- A sample runtime: every URL parses and the tracker is `sampleTracker`. -/
def sampleRuntime : Runtime :=
  { formatOther := fun _ _ => "", urlParse := fun _ => true, httpGet := sampleTracker }

/-- A reference of 400 digits, beyond the float64 range. -/
def hugeReference : String := String.mk (List.replicate 400 '9')

/-! ### Lemmas on the encoder -/

theorem encodeStep_eq (acc : List Char) (c : Char) :
    encodeStep acc c = acc ++ encodeCharSpec c := by
  unfold encodeStep encodeCharSpec containsRune
  by_cases h : c ∈ Consonants.data
  · simp [h, toLower]
  · simp [h]

theorem foldl_encodeStep (l acc : List Char) :
    l.foldl encodeStep acc = acc ++ (l.map encodeCharSpec).flatten := by
  induction l generalizing acc with
  | nil => simp
  | cons c t ih => simp [List.foldl_cons, ih, encodeStep_eq, List.append_assoc]

theorem swedishEncode_data (s : String) :
    (swedishEncode s).data = (s.data.map encodeCharSpec).flatten := by
  simp [swedishEncode, foldl_encodeStep]

theorem sublist_encode (l : List Char) : l.Sublist ((l.map encodeCharSpec).flatten) := by
  induction l with
  | nil => simp
  | cons c t ih =>
    simp only [List.map_cons, List.flatten_cons]
    have h1 : [c].Sublist (encodeCharSpec c) := by
      unfold encodeCharSpec
      split <;> simp
    exact List.Sublist.append h1 ih

theorem length_encode (l : List Char) :
    ((l.map encodeCharSpec).flatten).length
      = l.length + 2 * l.countP (fun c => containsRune Consonants c) := by
  induction l with
  | nil => simp
  | cons c t ih =>
    simp only [List.map_cons, List.flatten_cons, List.length_append, ih, List.length_cons,
      List.countP_cons]
    by_cases h : c ∈ Consonants.data
    · simp [encodeCharSpec, containsRune, h]; omega
    · simp [encodeCharSpec, containsRune, h]; omega

theorem encode_of_no_consonant (l : List Char) (h : ∀ c ∈ l, c ∉ Consonants.data) :
    (l.map encodeCharSpec).flatten = l := by
  induction l with
  | nil => simp
  | cons c t ih =>
    have hc : c ∉ Consonants.data := h c (by simp)
    have ht : ∀ d ∈ t, d ∉ Consonants.data := fun d hd => h d (by simp [hd])
    simp [encodeCharSpec, hc, ih ht]

theorem countP_zero_of_encode_fixed (l : List Char)
    (h : (l.map encodeCharSpec).flatten = l) :
    l.countP (fun c => containsRune Consonants c) = 0 := by
  have hl := length_encode l
  rw [h] at hl
  omega

/-! ### Lemmas on runs -/

theorem bind_eq {α β : Type} (x : Run α) (f : α → Run β) : (x >>= f) = Run.andThen x f := rfl

theorem pure_eq {α : Type} (a : α) : (pure a : Run α) = Run.ret a := rfl

/-! ### The Response Selector on an issue record -/

/-- On an issue record whose number denotes the integer `n`, the selector completes and
its effects are those of the decision table. -/
theorem respond_eq_table (rt : Runtime) (c : Config) (event : Event) (v : F64) (m : JMap)
    (x : F64) (n : Int) (title state htmlUrl : String) (assignee : Option String)
    (hm : IsIssueRecord m x title state htmlUrl assignee) (hn : x.toInt? = some n) :
    respond rt c event v (Signbit v) m
      = ⟨decisionTable rt c event (Signbit v) v.toInt? x n title state htmlUrl assignee,
          some ()⟩ := by
  have ha := hm.assignee_eq
  cases hs : Signbit v
  · by_cases h1 : n = 1
    · simp [respond, decisionTable, F64.eqInt, hn, h1, hm.number_eq, bind_eq, Run.andThen,
        perform, assertFloat64, pure_eq, Run.ret, inJokeText, inJokeAction]
    · by_cases h2 : n = 1555
      · simp [respond, decisionTable, F64.eqInt, hn, h2, hm.number_eq, bind_eq,
          Run.andThen, perform, assertFloat64, pure_eq, Run.ret, themedAction]
      · cases assignee with
        | none =>
          simp only at ha
          by_cases hmod : n % 1555 = 0 <;>
          simp [respond, decisionTable, F64.eqInt, F64.modIsZero, hn, h1, h2, hmod, ha,
            JVal.notNil, hm.number_eq, hm.title_eq, hm.state_eq, hm.url_eq, bind_eq, pure_eq,
            Run.andThen, Run.ret, perform, assertFloat64, assertString, standardText,
            assigneeSuffix, suspiciousAction]
        | some login =>
          obtain ⟨fields, hf, hl⟩ := ha
          by_cases hmod : n % 1555 = 0 <;>
          simp [respond, decisionTable, F64.eqInt, F64.modIsZero, hn, h1, h2, hmod, hf, hl,
            JVal.notNil, hm.number_eq, hm.title_eq, hm.state_eq, hm.url_eq, bind_eq, pure_eq,
            Run.andThen, Run.ret, perform, assertFloat64, assertString, assertMap,
            standardText, assigneeSuffix, suspiciousAction]
  · by_cases hv1 : v.toInt? = some (-1)
    · simp [respond, decisionTable, F64.eqInt, hv1, hm.number_eq, bind_eq, Run.andThen,
        perform, assertFloat64, pure_eq, Run.ret, easterEggText]
    · by_cases hv2 : v.toInt? = some (-1555)
      · simp [respond, decisionTable, F64.eqInt, hv2, bind_eq, Run.andThen, perform,
          pure_eq, Run.ret, warningText]
      · by_cases hmod : n % 1555 = 0 <;>
        simp [respond, decisionTable, F64.eqInt, F64.modIsZero, hn, hv1, hv2, hmod,
          hm.number_eq, hm.title_eq, hm.url_eq, bind_eq, pure_eq, Run.andThen, Run.ret,
          perform, assertFloat64, assertString, themedText, alternateText]

/-! ### The loop over the matches -/

theorem andThen_assoc {α β γ : Type} (x : Run α) (f : α → Run β) (g : β → Run γ) :
    Run.andThen (Run.andThen x f) g = Run.andThen x (fun a => Run.andThen (f a) g) := by
  unfold Run.andThen
  cases hx : x.value with
  | none => simp
  | some a =>
    cases hf : (f a).value with
    | none => simp [hf]
    | some b => simp [hf, List.append_assoc]

theorem forEach_cons (body : List String → Run Unit) (a : List String)
    (t : List (List String)) :
    forEach body (a :: t) = Run.andThen (body a) (fun _ => forEach body t) := rfl

theorem forEach_append (body : List String → Run Unit) (l₁ l₂ : List (List String)) :
    forEach body (l₁ ++ l₂) = Run.andThen (forEach body l₁) (fun _ => forEach body l₂) := by
  induction l₁ with
  | nil => simp [forEach, pure_eq, Run.andThen, Run.ret]
  | cons a t ih =>
    rw [List.cons_append, forEach_cons, forEach_cons, ih, andThen_assoc]

theorem forEach_quiet (body : List String → Run Unit) (l : List (List String))
    (h : ∀ a ∈ l, body a = ⟨[], some ()⟩) : forEach body l = ⟨[], some ()⟩ := by
  induction l with
  | nil => rfl
  | cons a t ih =>
    have ha := h a (by simp)
    have ht := ih (fun b hb => h b (by simp [hb]))
    simp [forEach, bind_eq, Run.andThen, ha, ht]

theorem outbound_append (a b : List Effect) : outbound (a ++ b) = outbound a ++ outbound b := by
  simp [outbound]

/-- A match that completes without an outbound message leaves the outbound messages and
the completion of the whole loop as they are without it. -/
theorem forEach_skip (body : List String → Run Unit) (pre post : List (List String))
    (a : List String) (hv : (body a).value = some ()) (ho : outbound (body a).trace = []) :
    outbound (forEach body (pre ++ a :: post)).trace = outbound (forEach body (pre ++ post)).trace
      ∧ (forEach body (pre ++ a :: post)).value = (forEach body (pre ++ post)).value := by
  rw [forEach_append, forEach_append]
  simp only [forEach, bind_eq, Run.andThen, hv]
  cases (forEach body pre).value with
  | none => simp
  | some u => simp [outbound_append, ho]

theorem handleMatch_failed (rt : Runtime) (c : Config) (event : Event) (sm : List String)
    (hfail : (fetchOutcome rt c sm).failed = true) :
    (handleMatch rt c event sm).value = some ()
      ∧ outbound (handleMatch rt c event sm).trace = [] := by
  unfold handleMatch
  unfold fetchOutcome at hfail
  dsimp only at hfail ⊢
  generalize (ParseFloat (sm.getD 1 "")).1 = v at hfail ⊢
  generalize issueUrl c (FormatFloat rt (Abs v) 'f') = u at hfail ⊢
  split
  · simp [pure_eq, Run.ret, outbound]
  · split
    · simp [pure_eq, Run.ret, outbound]
    · split
      · simp [perform, outbound]
      · cases hr : rt.httpGet u c.Token with
        | transportError => simp [bind_eq, Run.andThen, perform, outbound]
        | response statusCode body =>
          rw [hr] at hfail
          by_cases hs : 200 ≤ statusCode ∧ statusCode ≤ 299
          · cases body with
            | none => simp [bind_eq, Run.andThen, perform, outbound, hs]
            | some m => simp [HttpResult.failed, hs] at hfail
          · simp [bind_eq, Run.andThen, perform, outbound, hs]

theorem handleMatch_guarded (rt : Runtime) (c : Config) (event : Event) (sm : List String)
    (h : event.Nick = "[BoltGitHubBot]") : handleMatch rt c event sm = ⟨[], some ()⟩ := by
  simp [handleMatch, h, pure_eq, Run.ret]

/-! ### Decimal digits: parsing and formatting -/

theorem toDigitsCore_fuel (n : Nat) : ∀ (f₁ f₂ : Nat) (acc : List Char), n < f₁ → n < f₂ →
    Nat.toDigitsCore 10 f₁ n acc = Nat.toDigitsCore 10 f₂ n [] ++ acc := by
  induction n using Nat.strong_induction_on with
  | _ n ih =>
    intro f₁ f₂ acc h₁ h₂
    obtain ⟨g₁, rfl⟩ : ∃ g, f₁ = g + 1 := ⟨f₁ - 1, by omega⟩
    obtain ⟨g₂, rfl⟩ : ∃ g, f₂ = g + 1 := ⟨f₂ - 1, by omega⟩
    simp only [Nat.toDigitsCore]
    by_cases hz : n / 10 = 0
    · simp [hz]
    · simp only [hz, if_false]
      have hlt : n / 10 < n := Nat.div_lt_self (by omega) (by decide)
      rw [ih (n / 10) hlt g₁ (n / 10 + 1) _ (by omega) (by omega),
        ih (n / 10) hlt g₂ (n / 10 + 1) [Nat.digitChar (n % 10)] (by omega) (by omega)]
      simp

theorem toDigits_step (a d : Nat) (ha : 0 < a) (hd : d < 10) :
    Nat.toDigits 10 (10 * a + d) = Nat.toDigits 10 a ++ [Nat.digitChar d] := by
  unfold Nat.toDigits
  have h1 : (10 * a + d) / 10 = a := by omega
  have h2 : (10 * a + d) % 10 = d := by omega
  rw [Nat.toDigitsCore]
  simp only [h1, h2]
  have hz : a ≠ 0 := by omega
  simp only [hz, if_false]
  exact toDigitsCore_fuel a _ _ _ (by omega) (by omega)

theorem toDigits_lt_ten (d : Nat) (hd : d < 10) : Nat.toDigits 10 d = [Nat.digitChar d] := by
  interval_cases d <;> rfl

theorem digitChar_digitVal (c : Char) (h : c.isDigit = true) :
    Nat.digitChar (digitVal c) = c ∧ digitVal c < 10 ∧ (digitVal c = 0 ↔ c = '0') := by
  have hc : c = Char.ofNat c.toNat := by simp
  simp only [Char.isDigit, Bool.and_eq_true, decide_eq_true_eq] at h
  have h1 : 48 ≤ c.toNat := by
    have := h.1; simpa [Char.toNat, UInt32.le_def] using this
  have h2 : c.toNat ≤ 57 := by
    have := h.2; simpa [Char.toNat, UInt32.le_def] using this
  unfold digitVal
  generalize hn : c.toNat = n at *
  interval_cases n <;> subst hc <;> simp <;> decide

theorem digitsVal_snoc (l : List Char) (d : Char) :
    digitsVal (l ++ [d]) = 10 * digitsVal l + digitVal d := by
  simp [digitsVal, List.foldl_append]

theorem toDigits_of_leading_nonzero (l : List Char) :
    l ≠ [] → l.head? ≠ some '0' → (∀ c ∈ l, c.isDigit = true) →
      Nat.toDigits 10 (digitsVal l) = l ∧ 0 < digitsVal l := by
  induction l using List.reverseRecOn with
  | nil => intro h; exact absurd rfl h
  | append_singleton init d ih =>
    intro _ hhead hdig
    have hd := digitChar_digitVal d (hdig d (by simp))
    rw [digitsVal_snoc]
    by_cases hinit : init = []
    · subst hinit
      have hne : d ≠ '0' := by simpa using hhead
      have hpos : digitVal d ≠ 0 := fun h0 => hne (hd.2.2.1 h0)
      refine ⟨?_, by simp [digitsVal]; omega⟩
      simp [digitsVal, toDigits_lt_ten _ hd.2.1, hd.1]
    · have hh : init.head? ≠ some '0' := by
        cases init with
        | nil => exact absurd rfl hinit
        | cons a t => simpa using hhead
      obtain ⟨h1, h2⟩ := ih hinit hh (fun c hc => hdig c (by simp [hc]))
      refine ⟨?_, by omega⟩
      rw [toDigits_step _ _ h2 hd.2.1, h1, hd.1]

theorem digitsVal_zero_cons (t : List Char) : digitsVal ('0' :: t) = digitsVal t := by
  simp [digitsVal, digitVal]

theorem stripLeadingZeros_zero_cons (t : List Char) :
    stripLeadingZeros ('0' :: t) = stripLeadingZeros t := by
  simp [stripLeadingZeros]

theorem toDigits_digitsVal (ds : List Char) (hdig : ∀ c ∈ ds, c.isDigit = true) :
    Nat.toDigits 10 (digitsVal ds) = stripLeadingZeros ds := by
  induction ds with
  | nil => rfl
  | cons c t ih =>
    by_cases hc : c = '0'
    · subst hc
      rw [digitsVal_zero_cons, stripLeadingZeros_zero_cons]
      exact ih (fun d hd => hdig d (by simp [hd]))
    · have hs : stripLeadingZeros (c :: t) = c :: t := by
        have hb : (c == '0') = false := by simpa using hc
        simp [stripLeadingZeros, List.dropWhile, hb]
      rw [hs]
      exact (toDigits_of_leading_nonzero (c :: t) (by simp) (by simpa using hc) hdig).1

theorem stripLeadingZeros_digits (ds : List Char) (hdig : ∀ c ∈ ds, c.isDigit = true) :
    ∀ c ∈ stripLeadingZeros ds, c.isDigit = true := by
  intro c hc
  unfold stripLeadingZeros at hc
  split at hc
  · simp at hc; subst hc; decide
  · rename_i h
    exact hdig c ((List.dropWhile_sublist _).subset hc)

theorem parseDecimal_digits (ds : List Char) (hne : ds ≠ [])
    (hdig : ∀ c ∈ ds, c.isDigit = true) :
    parseDecimal ds = some (false, digitsVal ds)
      ∧ parseDecimal ('-' :: ds) = some (true, digitsVal ds) := by
  have hall : ds.all Char.isDigit = true := by simpa using hdig
  constructor
  · cases ds with
    | nil => exact absurd rfl hne
    | cons c t =>
      have hc : c ≠ '-' := by
        intro h
        have := hdig c (by simp)
        rw [h] at this
        exact absurd this (by decide)
      unfold parseDecimal
      split
      · rename_i heq
        simp at heq
        exact absurd heq.1 hc
      · simp [hall]
  · simp [parseDecimal, hne, hall]

theorem parseFloat_digits (ds : List Char) (hne : ds ≠ [])
    (hdig : ∀ c ∈ ds, c.isDigit = true) (hlt : digitsVal ds < 2 ^ 53) :
    ParseFloat (String.mk ds) = (⟨false, .fin (digitsVal ds) 0⟩, none)
      ∧ ParseFloat (String.mk ('-' :: ds)) = (⟨true, .fin (digitsVal ds) 0⟩, none) := by
  obtain ⟨h1, h2⟩ := parseDecimal_digits ds hne hdig
  have hr : roundNat (digitsVal ds) = .fin (digitsVal ds) 0 := by
    unfold roundNat
    rw [if_pos hlt]
  simp [ParseFloat, h1, h2, hr]

theorem formatFloat_small (rt : Runtime) (n : Nat) (hlt : n < 2 ^ 53) :
    FormatFloat rt (Abs ⟨false, .fin n 0⟩) 'f' = String.mk (Nat.toDigits 10 n)
      ∧ FormatFloat rt (Abs ⟨true, .fin n 0⟩) 'f' = String.mk (Nat.toDigits 10 n) := by
  have hlt' : n < 9007199254740992 := by simpa using hlt
  constructor <;> simp [FormatFloat, Abs, Mag.toNat?] <;> intro h <;> omega

theorem fmtV_small (rt : Runtime) (x : F64) (k : Nat) (hneg : x.neg = false)
    (hk : x.mag.toNat? = some k) (hlt : k < 1000000) :
    fmtV rt x = String.mk (Nat.toDigits 10 k) := by
  have hlen : (Nat.toDigits 10 k).length ≤ 6 :=
    Nat.toDigitsCore_length 10 (by decide) (k + 1) k 6 (by omega) (by decide)
  unfold fmtV FormatFloat
  cases hmag : x.mag with
  | inf => rw [hmag] at hk; simp [Mag.toNat?] at hk
  | fin man exp =>
    rw [hmag] at hk
    have h53 : k < 2 ^ 53 := by
      have : (1000000 : Nat) < 2 ^ 53 := by decide
      omega
    simp only [hk, h53, if_true, hneg]
    simp [formatNatG, hlen]

theorem toNat_of_toInt (x : F64) (n : Int) (hneg : x.neg = false) (hn : x.toInt? = some n) :
    x.mag.toNat? = some n.toNat := by
  unfold F64.toInt? at hn
  cases hk : x.mag.toNat? with
  | none => rw [hk] at hn; simp at hn
  | some k =>
    rw [hk] at hn
    simp [hneg] at hn
    subst hn
    simp

/-! ## The claims -/

/-- C3. Transform and Sign Resolver: for every non-empty string `d` of decimal digits that
denotes an integer below `2 ^ 53`, parsing `d` and `-d` raises no error, the sign flag is
false for `d` and true for `-d` (also when `d` denotes zero), and in both cases the
magnitude string is `d` without its leading zeros (`0` when `d` is all zeros), which holds
digits only: no sign, no fractional part, no exponent. -/
theorem resolver_sign_and_magnitude (rt : Runtime) (d : List Char) (hne : d ≠ [])
    (hdig : ∀ c ∈ d, c.isDigit = true) (hlt : digitsVal d < 2 ^ 53) :
    (ParseFloat (String.mk d)).2 = none
      ∧ (ParseFloat (String.mk ('-' :: d))).2 = none
      ∧ Signbit (ParseFloat (String.mk d)).1 = false
      ∧ Signbit (ParseFloat (String.mk ('-' :: d))).1 = true
      ∧ FormatFloat rt (Abs (ParseFloat (String.mk d)).1) 'f' = String.mk (stripLeadingZeros d)
      ∧ FormatFloat rt (Abs (ParseFloat (String.mk ('-' :: d))).1) 'f'
          = String.mk (stripLeadingZeros d)
      ∧ (∀ c ∈ stripLeadingZeros d, c.isDigit = true) := by
  obtain ⟨h1, h2⟩ := parseFloat_digits d hne hdig hlt
  obtain ⟨f1, f2⟩ := formatFloat_small rt (digitsVal d) hlt
  rw [h1, h2]
  refine ⟨rfl, rfl, rfl, rfl, ?_, ?_, stripLeadingZeros_digits d hdig⟩
  · rw [f1, toDigits_digitsVal d hdig]
  · rw [f2, toDigits_digitsVal d hdig]

/-- Witness of C3: the captured texts `0`, `-0`, `42`, `-42` and `007`. -/
theorem resolver_sign_and_magnitude_witness :
    (Signbit (ParseFloat "-0").1, FormatFloat sampleRuntime (Abs (ParseFloat "-0").1) 'f')
        = (true, "0")
      ∧ (Signbit (ParseFloat "42").1, FormatFloat sampleRuntime (Abs (ParseFloat "42").1) 'f')
        = (false, "42")
      ∧ (Signbit (ParseFloat "-42").1, FormatFloat sampleRuntime (Abs (ParseFloat "-42").1) 'f')
        = (true, "42")
      ∧ FormatFloat sampleRuntime (Abs (ParseFloat "-007").1) 'f' = "7" := by
  have h0 := resolver_sign_and_magnitude sampleRuntime ['0'] (by decide) (by decide) (by decide)
  have h42 := resolver_sign_and_magnitude sampleRuntime ['4', '2'] (by decide) (by decide)
    (by decide)
  have h7 := resolver_sign_and_magnitude sampleRuntime ['0', '0', '7'] (by decide) (by decide)
    (by decide)
  exact ⟨Prod.ext h0.2.2.2.1 h0.2.2.2.2.2.1, Prod.ext h42.2.2.1 h42.2.2.2.2.1,
    Prod.ext h42.2.2.2.1 h42.2.2.2.2.2.1, h7.2.2.2.2.2.1⟩

/-- C5. Anti-Loop Guard: for every inbound PRIVMSG whose author is `[BoltGitHubBot]`,
whatever its text and target, the handler completes with no effect at all: it issues no
tracker fetch and sends no notice and no action. -/
theorem anti_loop_guard (rt : Runtime) (c : Config) (event : Event)
    (h : event.Nick = "[BoltGitHubBot]") :
    handler rt c event = ⟨[], some ()⟩
      ∧ fetches (handler rt c event).trace = []
      ∧ outbound (handler rt c event).trace = [] := by
  have hq : handler rt c event = ⟨[], some ()⟩ :=
    forEach_quiet _ _ (fun a _ => handleMatch_guarded rt c event a h)
  rw [hq]
  exact ⟨rfl, rfl, rfl⟩

/-- Witness of C5: a message of the guarded author that mentions issues 3110 and -1. -/
theorem anti_loop_guard_witness :
    handler sampleRuntime sampleConfig ⟨"[BoltGitHubBot]", "#bolt", "see #3110 and #-1"⟩
      = ⟨[], some ()⟩ :=
  (anti_loop_guard sampleRuntime sampleConfig ⟨"[BoltGitHubBot]", "#bolt", "see #3110 and #-1"⟩
    rfl).1

/-- C4. Fetch failures are silent and local to one match: when the fetch of a match of the
message fails (transport error, status outside [200,299], or a body that does not decode),
that match completes and sends no notice and no action, and the outbound messages and the
completion of the whole handler are those of the loop over the other matches. -/
theorem fetch_failure_silent_and_local (rt : Runtime) (c : Config) (event : Event)
    (pre post : List (List String)) (sm : List String)
    (hmatch : FindAllStringSubmatch event.message = pre ++ sm :: post)
    (hfail : (fetchOutcome rt c sm).failed = true) :
    outbound (handleMatch rt c event sm).trace = []
      ∧ (handleMatch rt c event sm).value = some ()
      ∧ outbound (handler rt c event).trace
          = outbound (forEach (handleMatch rt c event) (pre ++ post)).trace
      ∧ (handler rt c event).value
          = (forEach (handleMatch rt c event) (pre ++ post)).value := by
  obtain ⟨hv, ho⟩ := handleMatch_failed rt c event sm hfail
  refine ⟨ho, hv, ?_⟩
  unfold handler
  rw [hmatch]
  exact forEach_skip _ pre post sm hv ho

/-- Witness of C4: issue 7 answers 404 between two mentions of issue 3110. -/
theorem fetch_failure_silent_and_local_witness :
    outbound (handler sampleRuntime sampleConfig ⟨"alice", "#bolt", "#3110 #7 #-3110"⟩).trace
      = outbound (forEach (handleMatch sampleRuntime sampleConfig
          ⟨"alice", "#bolt", "#3110 #7 #-3110"⟩) [["#3110", "3110"], ["#-3110", "-3110"]]).trace :=
  (fetch_failure_silent_and_local sampleRuntime sampleConfig ⟨"alice", "#bolt", "#3110 #7 #-3110"⟩
    [["#3110", "3110"]] [["#-3110", "-3110"]] ["#7", "7"] (by decide) (by decide)).2.2.1

/-- C2. For every string, `swedishEncode` equals the in-order concatenation, over each
character `c`, of `[c, 'o', toLower c]` when `c` is one of the 40 characters of `Consonants`
and of `[c]` alone otherwise; and `swedishEncode "Go" = "Gogo"`. -/
theorem swedishEncode_eq_spec (s : String) :
    swedishEncode s = swedishEncodeSpec s
      ∧ Consonants.length = 40
      ∧ swedishEncode "Go" = "Gogo" := by
  refine ⟨?_, by decide, by decide⟩
  simp [swedishEncode, swedishEncodeSpec, foldl_encodeStep]

/-- C10. `swedishEncode` is order-preserving and length-non-decreasing: every string is a
subsequence of its encoding, the encoding has the length of the string plus twice its
number of consonants, the encoding equals the string exactly when the string has no
character of `Consonants`, and exactly then encoding a second time changes nothing. -/
theorem swedishEncode_order_and_length (s : String) :
    s.data.Sublist (swedishEncode s).data
      ∧ (swedishEncode s).length = s.length + 2 * consonantCount s
      ∧ s.length ≤ (swedishEncode s).length
      ∧ (swedishEncode s = s ↔ ∀ c ∈ s.data, c ∉ Consonants.data)
      ∧ (swedishEncode (swedishEncode s) = swedishEncode s ↔ ∀ c ∈ s.data, c ∉ Consonants.data) := by
  have hsub : s.data.Sublist (swedishEncode s).data := by
    rw [swedishEncode_data]; exact sublist_encode s.data
  have hlen : (swedishEncode s).length = s.length + 2 * consonantCount s := by
    simp only [String.length, swedishEncode_data, length_encode, consonantCount]
  have hfix : ∀ t : String, swedishEncode t = t ↔ ∀ c ∈ t.data, c ∉ Consonants.data := by
    intro t
    constructor
    · intro h c hc hcons
      have hd : (t.data.map encodeCharSpec).flatten = t.data := by
        rw [← swedishEncode_data, h]
      have h0 := countP_zero_of_encode_fixed t.data hd
      rw [List.countP_eq_zero] at h0
      exact h0 c hc (by simpa [containsRune] using hcons)
    · intro h
      have hd := encode_of_no_consonant t.data h
      rw [← swedishEncode_data] at hd
      cases t
      cases hs : swedishEncode _
      simp_all
  refine ⟨hsub, hlen, by omega, hfix s, ?_⟩
  constructor
  · intro h c hc
    exact (hfix (swedishEncode s)).1 h c (hsub.subset hc)
  · intro h
    rw [(hfix s).2 h, (hfix s).2 h]

/-- C1. Response Selector decision table: on an issue record whose number denotes the
integer `n`, with the parsed reference `v` and `isAlternate = Signbit v`, the selector
completes and its effects are those of exactly one branch, the first that matches:
(1) alternate and `v = -1`: the Easter-egg notice with the fetched number in its slot;
(2) alternate and `v = -1555`: the warning notice to the author; (3) alternate and
`n mod 1555 = 0`: the themed notice with the number twice; (4) alternate otherwise: the
alternate notice with the number, the encoded title and the URL; (5) not alternate and
`n = 1`: the in-joke notice (and its follow-up); (6) not alternate and `n = 1555`: the
themed action to the author; (7) otherwise the standard notice (and its follow-up when
`n mod 1555 = 0`). The modulus tests are on the fetched `n`. -/
theorem response_selector_table (rt : Runtime) (c : Config) (event : Event) (v : F64)
    (m : JMap) (x : F64) (n : Int) (title state htmlUrl : String) (assignee : Option String)
    (hm : IsIssueRecord m x title state htmlUrl assignee) (hn : x.toInt? = some n) :
    (respond rt c event v (Signbit v) m).value = some ()
      ∧ (Signbit v = true → v.toInt? = some (-1) →
          (respond rt c event v (Signbit v) m).trace
            = [.notice event.target (easterEggText (fmtV rt x))])
      ∧ (Signbit v = true → v.toInt? = some (-1555) →
          (respond rt c event v (Signbit v) m).trace
            = [.notice event.target (warningText event.Nick)])
      ∧ (Signbit v = true → v.toInt? ≠ some (-1) → v.toInt? ≠ some (-1555) → n % 1555 = 0 →
          (respond rt c event v (Signbit v) m).trace
            = [.notice event.target (themedText (fmtV rt x))])
      ∧ (Signbit v = true → v.toInt? ≠ some (-1) → v.toInt? ≠ some (-1555) → n % 1555 ≠ 0 →
          (respond rt c event v (Signbit v) m).trace
            = [.notice event.target (alternateText (fmtV rt x) title htmlUrl)])
      ∧ (Signbit v = false → n = 1 →
          (respond rt c event v (Signbit v) m).trace
            = [.notice event.target (inJokeText c.Nickname), .sleep 5,
                .action event.target inJokeAction])
      ∧ (Signbit v = false → n = 1555 →
          (respond rt c event v (Signbit v) m).trace
            = [.action event.target (themedAction event.Nick)])
      ∧ (Signbit v = false → n ≠ 1 → n ≠ 1555 →
          (respond rt c event v (Signbit v) m).trace
            = .notice event.target (standardText (fmtV rt x) state title htmlUrl assignee)
                :: (if n % 1555 = 0 then [.sleep 2, .action event.target suspiciousAction]
                    else [])) := by
  rw [respond_eq_table rt c event v m x n title state htmlUrl assignee hm hn]
  refine ⟨rfl, ?_, ?_, ?_, ?_, ?_, ?_, ?_⟩
  · intro hs hv; simp [decisionTable, hs, hv]
  · intro hs hv; simp [decisionTable, hs, hv]
  · intro hs h1 h2 hmod; simp [decisionTable, hs, h1, h2, hmod]
  · intro hs h1 h2 hmod; simp [decisionTable, hs, h1, h2, hmod]
  · intro hs h1; simp [decisionTable, hs, h1]
  · intro hs h2; simp [decisionTable, hs, h2]
  · intro hs h1 h2; simp [decisionTable, hs, h1, h2]

/-- Witness of C1: the reference `#-5` with the fetched record 3110 (twice 1555) takes
branch 3, on the fetched number. -/
theorem response_selector_table_witness :
    (respond sampleRuntime sampleConfig ⟨"alice", "#bolt", "#-5"⟩ (F64.ofInt (-5)) true
        sampleRecord).trace
      = [.notice "#bolt"
          "#3110 They don't think it be like it is but it do. https://github.com/bolt/bolt/issues/3110"] :=
  (response_selector_table sampleRuntime sampleConfig ⟨"alice", "#bolt", "#-5"⟩ (F64.ofInt (-5))
    sampleRecord (F64.ofInt 3110) 3110 "Go" "open" "https://github.com/bolt/bolt/issues/3110"
    (some "bopp") ⟨rfl, rfl, rfl, rfl, ⟨_, rfl, rfl⟩⟩ rfl).2.2.2.1 rfl (by decide) (by decide)
    (by decide)

/-- C6. Delayed follow-up: on an issue record whose number denotes the integer `n`, a sleep
followed by an action is emitted if and only if the reference is not alternate and either
`n = 1`, or `n mod 1555 = 0` with `n` different from 1555. With a non-alternate reference
and `n = 1555` the run is exactly one action addressed to the author, and an alternate
reference never has a delayed follow-up. -/
theorem delayed_follow_up_iff (rt : Runtime) (c : Config) (event : Event) (v : F64)
    (m : JMap) (x : F64) (n : Int) (title state htmlUrl : String) (assignee : Option String)
    (hm : IsIssueRecord m x title state htmlUrl assignee) (hn : x.toInt? = some n) :
    (hasDelayedAction (respond rt c event v (Signbit v) m).trace = true
        ↔ (Signbit v = false ∧ (n = 1 ∨ (n % 1555 = 0 ∧ n ≠ 1555))))
      ∧ (Signbit v = false → n = 1555 →
          respond rt c event v (Signbit v) m
            = ⟨[.action event.target (themedAction event.Nick)], some ()⟩)
      ∧ (Signbit v = true →
          hasDelayedAction (respond rt c event v (Signbit v) m).trace = false) := by
  rw [respond_eq_table rt c event v m x n title state htmlUrl assignee hm hn]
  refine ⟨?_, ?_, ?_⟩
  · cases hs : Signbit v
    · by_cases h1 : n = 1
      · simp [decisionTable, h1, hasDelayedAction]
      · by_cases h2 : n = 1555
        · simp [decisionTable, h2, hasDelayedAction]
        · by_cases hmod : n % 1555 = 0 <;>
          simp [decisionTable, h1, h2, hmod, hasDelayedAction]
    · by_cases hv1 : v.toInt? = some (-1)
      · simp [decisionTable, hv1, hasDelayedAction]
      · by_cases hv2 : v.toInt? = some (-1555)
        · simp [decisionTable, hv2, hasDelayedAction]
        · by_cases hmod : n % 1555 = 0 <;>
          simp [decisionTable, hv1, hv2, hmod, hasDelayedAction]
  · intro hs h2
    simp [decisionTable, hs, h2]
  · intro hs
    by_cases hv1 : v.toInt? = some (-1)
    · simp [decisionTable, hs, hv1, hasDelayedAction]
    · by_cases hv2 : v.toInt? = some (-1555)
      · simp [decisionTable, hs, hv2, hasDelayedAction]
      · by_cases hmod : n % 1555 = 0 <;>
        simp [decisionTable, hs, hv1, hv2, hmod, hasDelayedAction]

/-- Witness of C6: the reference `#3110` with the fetched record 3110 (twice 1555) has a
delayed follow-up. -/
theorem delayed_follow_up_iff_witness :
    hasDelayedAction (respond sampleRuntime sampleConfig ⟨"alice", "#bolt", "#3110"⟩
        (F64.ofInt 3110) false sampleRecord).trace = true :=
  (delayed_follow_up_iff sampleRuntime sampleConfig ⟨"alice", "#bolt", "#3110"⟩ (F64.ofInt 3110)
    sampleRecord (F64.ofInt 3110) 3110 "Go" "open" "https://github.com/bolt/bolt/issues/3110"
    (some "bopp") ⟨rfl, rfl, rfl, rfl, ⟨_, rfl, rfl⟩⟩ rfl).1.2 ⟨rfl, Or.inr (by decide)⟩

/-- C7. Default notice and optional assignee: for a non-alternate reference and an issue
record whose number denotes an integer other than 1 and 1555, the selector completes and
its first effect is the notice `#number [state] title url suffix`, where the suffix is
` — assigned to login` when the record has an assignee and empty when the assignee is
absent or null; the only other effects are the follow-up when `n mod 1555 = 0`. The number
is rendered in decimal when it is below 1000000 with a clear sign bit. -/
theorem default_notice_assignee (rt : Runtime) (c : Config) (event : Event) (v : F64)
    (m : JMap) (x : F64) (n : Int) (title state htmlUrl : String) (assignee : Option String)
    (hm : IsIssueRecord m x title state htmlUrl assignee) (hn : x.toInt? = some n)
    (hs : Signbit v = false) (h1 : n ≠ 1) (h2 : n ≠ 1555) :
    (respond rt c event v (Signbit v) m).value = some ()
      ∧ (respond rt c event v (Signbit v) m).trace
          = .notice event.target
              ("#" ++ fmtV rt x ++ " [" ++ state ++ "] " ++ title ++ " " ++ htmlUrl ++ " "
                ++ (match assignee with
                    | none => ""
                    | some login => " — assigned to " ++ login))
            :: (if n % 1555 = 0 then
                  [.sleep 2, .action event.target "looks at that number suspiciously…"]
                else [])
      ∧ (x.neg = false → n < 1000000 → fmtV rt x = toString n.toNat) := by
  rw [respond_eq_table rt c event v m x n title state htmlUrl assignee hm hn]
  refine ⟨rfl, ?_, ?_⟩
  · cases assignee <;>
    simp [decisionTable, hs, h1, h2, standardText, assigneeSuffix, suspiciousAction]
  · intro hneg hlt
    rw [fmtV_small rt x n.toNat hneg (toNat_of_toInt x n hneg hn) (by omega)]
    rfl

/-- Witness of C7: the reference `#42` answered with an unassigned record numbered 42. -/
theorem default_notice_assignee_witness :
    (respond sampleRuntime sampleConfig ⟨"alice", "#bolt", "#42"⟩ (F64.ofInt 42) false
        [("number", .num (F64.ofInt 42)), ("state", .str "closed"), ("title", .str "Fix"),
         ("html_url", .str "https://github.com/bolt/bolt/issues/42"), ("assignee", .null)]).trace
      = [.notice "#bolt" "#42 [closed] Fix https://github.com/bolt/bolt/issues/42 "] :=
  (default_notice_assignee sampleRuntime sampleConfig ⟨"alice", "#bolt", "#42"⟩ (F64.ofInt 42)
    [("number", .num (F64.ofInt 42)), ("state", .str "closed"), ("title", .str "Fix"),
     ("html_url", .str "https://github.com/bolt/bolt/issues/42"), ("assignee", .null)]
    (F64.ofInt 42) 42 "Fix" "closed" "https://github.com/bolt/bolt/issues/42" none
    ⟨rfl, rfl, rfl, rfl, rfl⟩ rfl rfl (by decide) (by decide)).2.1

/-- C8 on the code: the message `#6 #3110`, where the tracker answers issue 6 with status
200 and the empty object: the assertion `m["number"].(float64)` panics after the first
fetch, so the handler does not complete and the second reference is never fetched. -/
theorem missing_field_panics :
    (handler sampleRuntime sampleConfig ⟨"alice", "#bolt", "#6 #3110"⟩).value = none
      ∧ (handler sampleRuntime sampleConfig ⟨"alice", "#bolt", "#6 #3110"⟩).trace
          = [.httpGet "https://api.github.com/repos/bolt/bolt/issues/6" "t0k3n"]
      ∧ (handler sampleRuntime sampleConfig ⟨"alice", "#bolt", "#3110"⟩).trace
          = [.httpGet "https://api.github.com/repos/bolt/bolt/issues/3110" "t0k3n",
              .notice "#bolt"
                "#3110 [open] Go https://github.com/bolt/bolt/issues/3110  — assigned to bopp",
              .sleep 2, .action "#bolt" "looks at that number suspiciously…"] := by
  decide

set_option maxRecDepth 100000 in
/-- C9 on the code: the message `#` followed by 400 digits: `ParseFloat` returns an
out-of-range error, yet the handler goes on and fetches the issue `+Inf`. -/
theorem parse_error_not_skipped :
    (ParseFloat hugeReference).2 = some .outOfRange
      ∧ FindAllStringSubmatch ("#" ++ hugeReference) = [["#" ++ hugeReference, hugeReference]]
      ∧ (handler sampleRuntime sampleConfig ⟨"alice", "#bolt", "#" ++ hugeReference⟩).trace
          = [.httpGet "https://api.github.com/repos/bolt/bolt/issues/+Inf" "t0k3n", .log] := by
  decide

end BoltIrcBot



